import Mathlib

/-!
Shallow embedding of the delegation-exchange and token-lifecycle core of the
`auth` service (packages `models/apps`, `models/exchanges`, `models/tokens`,
and `http/helpers.RandomStr`), together with theorems settling the frozen
claims about it.

The three relational tables (`auth.apps`, `auth.exchanges`, `auth.tokens`) are
modelled as lists of rows inside a `DBState`.  SQL statements are embedded by
their row-level semantics: a `QueryRow ... Scan` that selects no row yields the
`sql.ErrNoRows` condition (`Err.noRows`); an `UPDATE`/`INSERT` transforms the
list.  External effects (the OAuth2 provider's grant and refresh calls, and
the possibility of a storage write failing) are supplied by explicit
environment records, and each model-level operation additionally returns the
list of effects it performed, in order, so that claims of the form "performs
no provider call" are statable.
-/

set_option linter.unusedVariables false

deriving instance DecidableEq for Except

namespace Auth

/-- Token material returned by the OAuth2 provider (the fields of
`oauth2.Token` that the code reads: `TokenType`, `AccessToken`,
`RefreshToken`, `Expiry`).  Times are modelled as naturals. -/
structure OAuth2Token where
  tokenType : String
  accessToken : String
  refreshToken : String
  expiry : Nat
  deriving DecidableEq

/-- A row of `auth.apps` (struct `apps.App`). -/
structure App where
  id : String
  service : String
  password : String
  callbackURL : String
  expiry : Option Nat
  createdAt : Option Nat
  status : String
  deriving DecidableEq

/-- A row of `auth.exchanges` (struct `exchanges.Exchange`). -/
structure Exchange where
  id : String
  service : String
  userID : Int
  deriving DecidableEq

/-- A row of `auth.tokens` (struct `tokens.Token`: an embedded `oauth2.Token`
plus `UserID`, `Service`, `CreatedAt`). -/
structure Token where
  userID : Int
  service : String
  tokenType : String
  accessToken : String
  refreshToken : String
  expiry : Nat
  createdAt : Nat
  deriving DecidableEq

/-- The provider endpoints the code can attach to a config
(`yandex.Endpoint`, `google.Endpoint`, `mailru.Endpoint`, `vk.Endpoint` from
the `golang.org/x/oauth2` library; distinct constants). -/
inductive Endpoint where
  | yandex
  | google
  | mailru
  | vk
  deriving DecidableEq

/-- The fields of `oauth2.Config` that `GetConf` fills in. -/
structure OAuthConfig where
  clientID : String
  clientSecret : String
  scopes : List String
  redirectURL : String
  endpoint : Endpoint
  deriving DecidableEq

/-- Model-level error outcomes.  `noRows` is the `sql.ErrNoRows` condition a
row-less `Scan` produces (the "not found" condition of the spec); the `err*`
constructors are the typed errors declared in `models/apps`
(`ErrService`, `ErrStatus`, `ErrExists`); `dbFailure`, `providerFailure` and
`randFailure` stand for an unclassified storage, provider-network or
random-source failure. -/
inductive Err where
  | noRows
  | errService
  | errStatus
  | errExists
  | dbFailure
  | providerFailure
  | randFailure
  deriving DecidableEq

/-- Observable effects an operation can perform, recorded in order. -/
inductive Effect where
  | exchangeLookup
  | appConfLookup
  | providerGrant
  | exchangeDelete
  | tokenWrite
  | tokenLookup
  | providerRefresh
  deriving DecidableEq

/-- The persistent state: the three tables owned by this core. -/
structure DBState where
  apps : List App
  exchanges : List Exchange
  tokens : List Token
  deriving DecidableEq

namespace helpers

/-- The alphabet constant `helpers.chars`: the 62 alphanumeric characters
0-9, a-z, A-Z. -/
def chars : String := "0123456789abcdefghijklmnopqrstuvwxyzABCDEFGHIJKLMNOPQRSTUVWXYZ"

/-- `chars` as a list of characters. -/
def charsList : List Char := chars.toList

/-- `helpers.RandomStr(length)`: fill a buffer of `length` bytes from the
crypto-random source, then replace each byte `b` by `chars[b % len(chars)]`
and return the resulting string.  The random source is passed explicitly as
`randomBytes`, each entry taken mod 256 (a byte's value range); a source that
fails to deliver exactly `length` bytes is the error case of `rand.Read`. -/
def RandomStr (length : Nat) (randomBytes : List Nat) : Option String :=
  if randomBytes.length = length then
    some (String.mk (randomBytes.map (fun b =>
      charsList.getD ((b % 256) % charsList.length) 'A')))
  else none

end helpers

namespace apps

/-- Status constant `apps.StatusEnable`. -/
def StatusEnable : String := "enable"

/-- Status constant `apps.StatusDisable`. -/
def StatusDisable : String := "disable"

/-- Service constant `apps.Google`. -/
def Google : String := "google"

/-- Service constant `apps.Yandex`. -/
def Yandex : String := "yandex"

/-- Service constant `apps.Mail`. -/
def Mail : String := "mail"

/-- Service constant `apps.VK`. -/
def VK : String := "vk"

/-- The static scope table `apps.scopes`.  The Go map holds entries only for
`Yandex` and `Google`; indexing it with any other key yields `nil`, embedded
here as the empty list. -/
def scopes (service : String) : List String :=
  if service = Yandex then ["mail:imap_ro"]
  else if service = Google then
    ["https://www.googleapis.com/github.com/Zetkolink/auth/gmail.addons.current.message.readonly"]
  else []

/-- The enabled-app lookup used by `GetByService` and `GetConf`:
`SELECT ... FROM auth.apps WHERE service = $1 AND status = 'enable'`,
returning the first matching row or the `ErrNoRows` condition. -/
def findEnabled (db : DBState) (service : String) : Option App :=
  db.apps.find? (fun a => a.service == service && a.status == StatusEnable)

/-- `apps.Model.GetConf`: resolve the enabled App for `service`, build the
`oauth2.Config` from its columns and the static scope table, then attach the
provider endpoint by a switch on the App's service; the switch's default
branch returns `ErrService`. -/
def GetConf (db : DBState) (service : String) : Except Err OAuthConfig :=
  match findEnabled db service with
  | none => .error .noRows
  | some app =>
    let conf : OAuthConfig :=
      { clientID := app.id
        clientSecret := app.password
        scopes := scopes app.service
        redirectURL := app.callbackURL
        endpoint := .yandex }
    if app.service == Yandex then .ok { conf with endpoint := .yandex }
    else if app.service == Google then .ok { conf with endpoint := .google }
    else if app.service == Mail then .ok { conf with endpoint := .mailru }
    else if app.service == VK then .ok { conf with endpoint := .vk }
    else .error .errService

/-- `apps.Model.SetStatus`: a status outside {enable, disable} fails fast with
`ErrStatus` before any storage access.  Otherwise the code runs
`QueryRowContext("UPDATE auth.apps SET status = $2 WHERE id = $1").Scan()`:
the UPDATE is executed (the row is changed), but an UPDATE without RETURNING
yields an empty result set, so the `Scan` always reports `sql.ErrNoRows` and
the function returns an error instead of the updated App. -/
def SetStatus (db : DBState) (id : String) (status : String) :
    Except Err App × DBState :=
  if status != StatusDisable && status != StatusEnable then
    (.error .errStatus, db)
  else
    (.error .noRows,
     { db with apps := db.apps.map (fun a =>
         if a.id == id then { a with status := status } else a) })

end apps

namespace exchanges

/-- `exchanges.Model.Get`:
`SELECT id, service, user_id FROM auth.exchanges WHERE id = $1`; a missing row
surfaces as the `ErrNoRows` condition. -/
def Get (db : DBState) (id : String) : Except Err Exchange :=
  match db.exchanges.find? (fun e => e.id == id) with
  | none => .error .noRows
  | some e => .ok e

/-- `exchanges.Model.Create`: `INSERT INTO auth.exchanges VALUES ...`.
`insertOk` is the environment's verdict on the storage write; a primary-key
collision also fails the insert.  On failure the error is returned raw
(unclassified). -/
def Create (db : DBState) (exchange : Exchange) (insertOk : Bool) :
    Except Err String × DBState :=
  if insertOk && !(db.exchanges.any (fun e => e.id == exchange.id)) then
    (.ok exchange.id, { db with exchanges := db.exchanges ++ [exchange] })
  else
    (.error .dbFailure, db)

/-- `exchanges.Model.Delete`: `DELETE FROM auth.exchanges WHERE id = $1`.
`deleteOk` is the environment's verdict on the storage write; on failure the
state is unchanged and the error is returned (the caller in `tokens.Create`
discards it). -/
def Delete (db : DBState) (id : String) (deleteOk : Bool) :
    Except Err Unit × DBState :=
  if deleteOk then
    (.ok (), { db with exchanges := db.exchanges.filter (fun e => !(e.id == id)) })
  else
    (.error .dbFailure, db)

end exchanges

namespace apps

/-- Environment for one `apps.AuthCodeURL` call: the bytes delivered by the
crypto-random source and the storage verdict for the exchange-row insert. -/
structure AuthCodeEnv where
  randomBytes : List Nat
  insertOk : Bool
  deriving DecidableEq

/-- `apps.Model.AuthCodeURL(service, userID)` ("start delegation"): resolve
the client config, mint `exchange.ID = RandomStr(32)`, persist the Exchange
row, and return `conf.AuthCodeURL(exchange.ID)`.  The URL itself is built by
the oauth2 library with the minted identifier as its `state` parameter; the
model returns that identifier (the value the library embeds verbatim). -/
def AuthCodeURL (env : AuthCodeEnv) (db : DBState) (service : String)
    (userID : Int) : Except Err String × DBState :=
  match GetConf db service with
  | .error e => (.error e, db)
  | .ok _conf =>
    match helpers.RandomStr 32 env.randomBytes with
    | none => (.error .randFailure, db)
    | some id =>
      let exchange : Exchange := { id := id, service := service, userID := userID }
      match exchanges.Create db exchange env.insertOk with
      | (.error e, db1) => (.error e, db1)
      | (.ok _, db1) => (.ok id, db1)

end apps

namespace tokens

/-- Environment for one `tokens.Create` call: the provider's answer to the
grant exchange `conf.Exchange(ctx, code)` (`none` = the call failed), the
current time `time.Now()`, and the storage verdicts for the exchange-row
delete and the token upsert. -/
structure CreateEnv where
  grantTok : Option OAuth2Token
  now : Nat
  deleteOk : Bool
  insertOk : Bool
  deriving DecidableEq

/-- Environment for one `tokens.Refresh` call: the token produced by
`conf.TokenSource(ctx, token.Token).Token()` (`none` = refresh failed), the
current time, and the storage verdict for the UPDATE. -/
structure RefreshEnv where
  refreshTok : Option OAuth2Token
  now : Nat
  updateOk : Bool
  deriving DecidableEq

/-- Row-level semantics of the upsert in `tokens.Create`:
`INSERT INTO auth.tokens VALUES (...) ON CONFLICT (user_id, service) DO
UPDATE SET access_token = excluded.access_token, refresh_token = ...,
expiry = ..., created_at = ...`.  On conflict only those four columns are
rewritten; in particular `token_type` keeps the value of the row already
stored. -/
def upsert (rows : List Token) (row : Token) : List Token :=
  if rows.any (fun t => t.userID == row.userID && t.service == row.service) then
    rows.map (fun t =>
      if t.userID == row.userID && t.service == row.service then
        { t with
            accessToken := row.accessToken
            refreshToken := row.refreshToken
            expiry := row.expiry
            createdAt := row.createdAt }
      else t)
  else
    rows ++ [row]

/-- `tokens.Model.Create(code, exchangeID)`: resolve the Exchange, resolve the
enabled App's client config for the Exchange's service, perform the grant
exchange with `code`, delete the Exchange row discarding the deletion error
(`_ = m.exchanges.Delete(...)`), then upsert the Token row keyed by the
Exchange's `(userID, service)` with the provider material and
`created_at = now`, returning the Exchange's `userID`.  The returned effect
list records which steps were reached. -/
def Create (env : CreateEnv) (db : DBState) (code : String) (exchangeID : String) :
    Except Err Int × DBState × List Effect :=
  match exchanges.Get db exchangeID with
  | .error e => (.error e, db, [.exchangeLookup])
  | .ok exchange =>
    match apps.GetConf db exchange.service with
    | .error e => (.error e, db, [.exchangeLookup, .appConfLookup])
    | .ok _conf =>
      match env.grantTok with
      | none =>
        (.error .providerFailure, db,
         [.exchangeLookup, .appConfLookup, .providerGrant])
      | some tk =>
        let db1 := (exchanges.Delete db exchangeID env.deleteOk).2
        let row : Token :=
          { userID := exchange.userID
            service := exchange.service
            tokenType := tk.tokenType
            accessToken := tk.accessToken
            refreshToken := tk.refreshToken
            expiry := tk.expiry
            createdAt := env.now }
        if env.insertOk then
          (.ok exchange.userID,
           { db1 with tokens := upsert db1.tokens row },
           [.exchangeLookup, .appConfLookup, .providerGrant, .exchangeDelete,
            .tokenWrite])
        else
          (.error .dbFailure, db1,
           [.exchangeLookup, .appConfLookup, .providerGrant, .exchangeDelete,
            .tokenWrite])

/-- `tokens.Model.Refresh(userID, service)`: read the stored row
(`WHERE user_id = $1 AND service = $2`; `ErrNoRows` if absent), resolve the
client config for the row's service, obtain a fresh token from the provider,
then run `UPDATE auth.tokens SET access_token = $2, refresh_token = $3,
expiry = $4, created_at = $5 WHERE user_id = $1` — the WHERE clause matches on
`user_id` alone, so every row of that user is rewritten.  On success the
function returns the record read in the first step, unchanged. -/
def Refresh (env : RefreshEnv) (db : DBState) (userID : Int) (service : String) :
    Except Err Token × DBState × List Effect :=
  match db.tokens.find? (fun t => t.userID == userID && t.service == service) with
  | none => (.error .noRows, db, [.tokenLookup])
  | some token =>
    match apps.GetConf db token.service with
    | .error e => (.error e, db, [.tokenLookup, .appConfLookup])
    | .ok _conf =>
      match env.refreshTok with
      | none =>
        (.error .providerFailure, db,
         [.tokenLookup, .appConfLookup, .providerRefresh])
      | some newToken =>
        if env.updateOk then
          (.ok token,
           { db with tokens := db.tokens.map (fun t =>
               if t.userID == userID then
                 { t with
                     accessToken := newToken.accessToken
                     refreshToken := newToken.refreshToken
                     expiry := newToken.expiry
                     createdAt := env.now }
               else t) },
           [.tokenLookup, .appConfLookup, .providerRefresh, .tokenWrite])
        else
          (.error .dbFailure, db,
           [.tokenLookup, .appConfLookup, .providerRefresh, .tokenWrite])

end tokens

/-! Concrete fixtures used by counterexamples and witnesses. -/

/-- An enabled Yandex App row. -/
def appYandex : App :=
  { id := "abc", service := "yandex", password := "secret",
    callbackURL := "https://x/cb", expiry := none, createdAt := none,
    status := "enable" }

/-- An enabled App row for a service absent from the provider switch. -/
def appFacebook : App :=
  { id := "fb1", service := "facebook", password := "fp",
    callbackURL := "https://f/cb", expiry := none, createdAt := none,
    status := "enable" }

/-- An enabled Mail App row. -/
def appMail : App :=
  { id := "m1", service := "mail", password := "mp",
    callbackURL := "https://m/cb", expiry := none, createdAt := none,
    status := "enable" }

/-- The client configuration `GetConf` resolves from `appYandex`. -/
def confYandex : OAuthConfig :=
  { clientID := "abc", clientSecret := "secret", scopes := ["mail:imap_ro"],
    redirectURL := "https://x/cb", endpoint := .yandex }

/-- First pending Exchange of user 1 for yandex. -/
def ex1 : Exchange := { id := "x1", service := "yandex", userID := 1 }

/-- Second pending Exchange of the same `(userID, service)` pair. -/
def ex2 : Exchange := { id := "x2", service := "yandex", userID := 1 }

/-- Grant result of the first exchange. -/
def tk1 : OAuth2Token :=
  { tokenType := "Bearer", accessToken := "a1", refreshToken := "r1", expiry := 10 }

/-- Grant result of the second exchange, with a different token type. -/
def tk2 : OAuth2Token :=
  { tokenType := "MAC", accessToken := "a2", refreshToken := "r2", expiry := 20 }

/-- Environment of the first create: everything succeeds at time 100. -/
def env1 : tokens.CreateEnv :=
  { grantTok := some tk1, now := 100, deleteOk := true, insertOk := true }

/-- Environment of the second create: everything succeeds at time 200. -/
def env2 : tokens.CreateEnv :=
  { grantTok := some tk2, now := 200, deleteOk := true, insertOk := true }

/-- Initial state: one enabled yandex App, two pending Exchanges, no Tokens. -/
def db0 : DBState := { apps := [appYandex], exchanges := [ex1, ex2], tokens := [] }

/-- The state after the first successful create consumed `ex1`. -/
def dbAfter1 : DBState := (tokens.Create env1 db0 "c1" "x1").2.1

/-- A stored Token row of user 1 for google. -/
def rowGoogle : Token :=
  { userID := 1, service := "google", tokenType := "Bearer",
    accessToken := "ga", refreshToken := "gr", expiry := 5, createdAt := 50 }

/-- A stored Token row of user 1 for yandex. -/
def rowYandex : Token :=
  { userID := 1, service := "yandex", tokenType := "Bearer",
    accessToken := "ya", refreshToken := "yr", expiry := 6, createdAt := 60 }

/-- The rotated token the provider returns on refresh. -/
def newTok : OAuth2Token :=
  { tokenType := "Bearer", accessToken := "na", refreshToken := "nr", expiry := 99 }

/-- Refresh environment: rotation succeeds at time 300. -/
def renv : tokens.RefreshEnv := { refreshTok := some newTok, now := 300, updateOk := true }

/-- State holding token rows of one user for two services. -/
def dbRefresh : DBState :=
  { apps := [appYandex], exchanges := [], tokens := [rowGoogle, rowYandex] }

/-- State holding only the enabled yandex App. -/
def dbApps : DBState := { apps := [appYandex], exchanges := [], tokens := [] }

/-- State holding only the enabled App for the unsupported service. -/
def dbFacebook : DBState := { apps := [appFacebook], exchanges := [], tokens := [] }

/-- State holding only the enabled mail App. -/
def dbMail : DBState := { apps := [appMail], exchanges := [], tokens := [] }

/-- The empty state. -/
def dbEmpty : DBState := { apps := [], exchanges := [], tokens := [] }

/-- Start-delegation environment: 32 zero bytes from the random source. -/
def envA : apps.AuthCodeEnv := { randomBytes := List.replicate 32 0, insertOk := true }

/-- The identifier `RandomStr` mints from 32 zero bytes. -/
def st32 : String := "00000000000000000000000000000000"

/-- The state after start-delegation for `(yandex, 7)` from `dbApps`. -/
def dbA1 : DBState := (apps.AuthCodeURL envA dbApps "yandex" 7).2

/-- `rowGoogle` after being clobbered by the yandex refresh. -/
def rowGoogleNew : Token :=
  { rowGoogle with
      accessToken := "na"
      refreshToken := "nr"
      expiry := 99
      createdAt := 300 }

/-- `rowYandex` after the yandex refresh. -/
def rowYandexNew : Token :=
  { rowYandex with
      accessToken := "na"
      refreshToken := "nr"
      expiry := 99
      createdAt := 300 }

/-! Shared helper lemmas. -/

/-- Run lemma for `tokens.Create`: once the Exchange, the client config and
the grant exchange have resolved, the call's result, final state and effect
trace are determined by the two storage verdicts. -/
theorem create_run
    (env : tokens.CreateEnv) (db : DBState) (code exchangeID : String)
    (exchange : Exchange) (conf : OAuthConfig) (tk : OAuth2Token)
    (hex : exchanges.Get db exchangeID = .ok exchange)
    (hconf : apps.GetConf db exchange.service = .ok conf)
    (htk : env.grantTok = some tk) :
    tokens.Create env db code exchangeID =
      ((if env.insertOk then .ok exchange.userID else .error .dbFailure),
       { apps := db.apps,
         exchanges := if env.deleteOk then
             db.exchanges.filter (fun e => !(e.id == exchangeID))
           else db.exchanges,
         tokens := if env.insertOk then
             tokens.upsert db.tokens
               { userID := exchange.userID, service := exchange.service,
                 tokenType := tk.tokenType, accessToken := tk.accessToken,
                 refreshToken := tk.refreshToken, expiry := tk.expiry,
                 createdAt := env.now }
           else db.tokens },
       [.exchangeLookup, .appConfLookup, .providerGrant, .exchangeDelete,
        .tokenWrite]) := by
  simp only [tokens.Create, hex, hconf, htk]
  cases hI : env.insertOk <;> cases hD : env.deleteOk <;>
    simp [exchanges.Delete, hI, hD]

/-- When `tokens.Create` succeeds and the best-effort delete succeeded, the
final state holds no Exchange row with the consumed id. -/
theorem create_ok_state
    (env : tokens.CreateEnv) (db : DBState) (code exchangeID : String) (uid : Int)
    (hdel : env.deleteOk = true)
    (h : (tokens.Create env db code exchangeID).1 = .ok uid) :
    (tokens.Create env db code exchangeID).2.1.exchanges =
      db.exchanges.filter (fun e => !(e.id == exchangeID)) := by
  rcases hex : exchanges.Get db exchangeID with e | exchange
  · simp [tokens.Create, hex] at h
  · rcases hconf : apps.GetConf db exchange.service with e | conf
    · simp [tokens.Create, hex, hconf] at h
    · rcases htk : env.grantTok with _ | tk
      · simp [tokens.Create, hex, hconf, htk] at h
      · by_cases hin : env.insertOk
        · simp [tokens.Create, hex, hconf, htk, hin, exchanges.Delete, hdel]
        · simp [tokens.Create, hex, hconf, htk, hin] at h

/-- A list purged of every row with a given id yields no row for that id. -/
theorem find_filter_id_none (l : List Exchange) (exchangeID : String) :
    (l.filter (fun e => !(e.id == exchangeID))).find?
      (fun e => e.id == exchangeID) = none := by
  rw [List.find?_eq_none]
  intro x hx
  have hmem := (List.mem_filter.mp hx).2
  simp only [Bool.not_eq_true', beq_eq_false_iff_ne] at hmem
  simp [hmem]

/-- When the Exchange lookup fails, `tokens.Create` stops at step 1 with the
not-found error, an unchanged state and a one-entry trace. -/
theorem create_get_noRows
    (env : tokens.CreateEnv) (db : DBState) (code exchangeID : String)
    (h : exchanges.Get db exchangeID = .error .noRows) :
    tokens.Create env db code exchangeID = (.error .noRows, db, [.exchangeLookup]) := by
  simp [tokens.Create, h]

/-- Inversion of a successful `apps.AuthCodeURL`: the returned state value is
the `RandomStr 32` output, and the Exchange row binding it to the request's
`(service, userID)` was appended to a ledger previously free of that id. -/
theorem authCodeURL_ok
    (env : apps.AuthCodeEnv) (db : DBState) (service : String) (userID : Int)
    (st : String) (db1 : DBState)
    (h : apps.AuthCodeURL env db service userID = (.ok st, db1)) :
    helpers.RandomStr 32 env.randomBytes = some st ∧
    db1.exchanges = db.exchanges ++ [{ id := st, service := service, userID := userID }] ∧
    (db.exchanges.any (fun e => e.id == st)) = false := by
  rcases hconf : apps.GetConf db service with e | conf
  · simp [apps.AuthCodeURL, hconf] at h
  · simp only [apps.AuthCodeURL, hconf] at h
    rcases hrnd : helpers.RandomStr 32 env.randomBytes with _ | id
    · simp [hrnd] at h
    · simp only [hrnd] at h
      unfold exchanges.Create at h
      by_cases hok : (env.insertOk && !(db.exchanges.any (fun e => e.id == id))) = true
      · rw [if_pos hok] at h
        simp only [Prod.mk.injEq, Except.ok.injEq] at h
        obtain ⟨hst, hdb⟩ := h
        subst hst
        refine ⟨rfl, hdb.symm ▸ rfl, ?_⟩
        have hand := (Bool.and_eq_true _ _).mp hok
        simpa using hand.2
      · rw [if_neg hok] at h
        simp at h

/-- A successful `RandomStr length` call returns a string of exactly `length`
characters, all drawn from the alphanumeric alphabet. -/
theorem randomStr_ok (length : Nat) (randomBytes : List Nat) (s : String)
    (h : helpers.RandomStr length randomBytes = some s) :
    s.length = length ∧ ∀ c ∈ s.toList, c ∈ helpers.charsList := by
  unfold helpers.RandomStr at h
  by_cases hl : randomBytes.length = length
  · rw [if_pos hl] at h
    obtain rfl := Option.some.injEq _ _ ▸ h.symm
    constructor
    · simpa [String.length] using hl
    · intro c hc
      simp only [String.toList, String.mk, List.mem_map] at hc
      obtain ⟨b, _, rfl⟩ := hc
      have hlt : (b % 256) % helpers.charsList.length < helpers.charsList.length :=
        Nat.mod_lt _ (by decide)
      rw [List.getD_eq_getElem _ _ hlt]
      exact List.getElem_mem hlt
  · rw [if_neg hl] at h
    exact absurd h (by simp)

/-! Claim theorems. -/

/-- C1: a successful `tokens.Create(code, exchangeID)` resolves the Exchange,
resolves the enabled App's client config for its service, performs the grant
exchange, deletes the Exchange row discarding any deletion error (the result
does not depend on the delete verdict), upserts the Token row keyed by the
Exchange's `(userID, service)` with the provider-returned material and
`createdAt = now`, and returns the Exchange's `userID`; since the deletion
precedes the token write, the Exchange row is deleted (under a successful
delete) even when the subsequent token write fails. -/
theorem create_flow_spec
    (env : tokens.CreateEnv) (db : DBState) (code exchangeID : String)
    (exchange : Exchange) (conf : OAuthConfig) (tk : OAuth2Token)
    (hex : exchanges.Get db exchangeID = .ok exchange)
    (hconf : apps.GetConf db exchange.service = .ok conf)
    (htk : env.grantTok = some tk) :
    tokens.Create env db code exchangeID =
      ((if env.insertOk then .ok exchange.userID else .error .dbFailure),
       { apps := db.apps,
         exchanges := if env.deleteOk then
             db.exchanges.filter (fun e => !(e.id == exchangeID))
           else db.exchanges,
         tokens := if env.insertOk then
             tokens.upsert db.tokens
               { userID := exchange.userID, service := exchange.service,
                 tokenType := tk.tokenType, accessToken := tk.accessToken,
                 refreshToken := tk.refreshToken, expiry := tk.expiry,
                 createdAt := env.now }
           else db.tokens },
       [.exchangeLookup, .appConfLookup, .providerGrant, .exchangeDelete,
        .tokenWrite]) :=
  create_run env db code exchangeID exchange conf tk hex hconf htk

/-- Witness for C1 at the concrete first-create scenario. -/
theorem create_flow_spec_witness :
    tokens.Create env1 db0 "c1" "x1" =
      ((if env1.insertOk then .ok ex1.userID else .error .dbFailure),
       { apps := db0.apps,
         exchanges := if env1.deleteOk then
             db0.exchanges.filter (fun e => !(e.id == "x1"))
           else db0.exchanges,
         tokens := if env1.insertOk then
             tokens.upsert db0.tokens
               { userID := ex1.userID, service := ex1.service,
                 tokenType := tk1.tokenType, accessToken := tk1.accessToken,
                 refreshToken := tk1.refreshToken, expiry := tk1.expiry,
                 createdAt := env1.now }
           else db0.tokens },
       [.exchangeLookup, .appConfLookup, .providerGrant, .exchangeDelete,
        .tokenWrite]) :=
  create_flow_spec env1 db0 "c1" "x1" ex1 confYandex tk1
    (by decide) (by decide) (by decide)

/-- C2, counterexample: two successful creates for the same
`(userID, service)` pair with different provider token types leave a stored
row whose `tokenType` ("Bearer") comes from the first exchange while its other
material comes from the second (`tk2.tokenType = "MAC"`), because the
ON CONFLICT clause does not update `token_type`; so not every field of the
stored row comes from the most recent successful exchange. -/
theorem create_tokenType_mix_cex :
    (tokens.Create env1 db0 "c1" "x1").1 = .ok 1 ∧
    (tokens.Create env2 dbAfter1 "c2" "x2").1 = .ok 1 ∧
    (tokens.Create env2 dbAfter1 "c2" "x2").2.1.tokens =
      [{ userID := 1, service := "yandex", tokenType := "Bearer",
         accessToken := "a2", refreshToken := "r2", expiry := 20,
         createdAt := 200 }] ∧
    tk2.tokenType = "MAC" ∧ "Bearer" ≠ "MAC" := by
  decide

/-- C2, amended: a repeated successful create for a pair that already has a
stored Token row overwrites exactly the row's access token, refresh token,
expiry and createdAt with the most recent exchange's values, leaving its
`userID`, `service` and `tokenType` as stored by the first insert; no other
mixing of fields occurs. -/
theorem create_repeat_overwrite
    (env : tokens.CreateEnv) (db : DBState) (code exchangeID : String)
    (exchange : Exchange) (conf : OAuthConfig) (tk : OAuth2Token)
    (hex : exchanges.Get db exchangeID = .ok exchange)
    (hconf : apps.GetConf db exchange.service = .ok conf)
    (htk : env.grantTok = some tk)
    (hin : env.insertOk = true)
    (hhas : db.tokens.any
      (fun t => t.userID == exchange.userID && t.service == exchange.service) = true) :
    (tokens.Create env db code exchangeID).1 = .ok exchange.userID ∧
    (tokens.Create env db code exchangeID).2.1.tokens =
      db.tokens.map (fun t =>
        if t.userID == exchange.userID && t.service == exchange.service then
          { t with accessToken := tk.accessToken, refreshToken := tk.refreshToken,
                   expiry := tk.expiry, createdAt := env.now }
        else t) := by
  have hrun := create_run env db code exchangeID exchange conf tk hex hconf htk
  rw [hrun]
  constructor
  · simp [hin]
  · simp only [hin, if_true]
    unfold tokens.upsert
    simp [hhas]

/-- Witness for the amended C2 at the concrete second-create scenario. -/
theorem create_repeat_overwrite_witness :
    (tokens.Create env2 dbAfter1 "c2" "x2").1 = .ok ex2.userID ∧
    (tokens.Create env2 dbAfter1 "c2" "x2").2.1.tokens =
      dbAfter1.tokens.map (fun t =>
        if t.userID == ex2.userID && t.service == ex2.service then
          { t with accessToken := tk2.accessToken, refreshToken := tk2.refreshToken,
                   expiry := tk2.expiry, createdAt := env2.now }
        else t) :=
  create_repeat_overwrite env2 dbAfter1 "c2" "x2" ex2 confYandex tk2
    (by decide) (by decide) (by decide) (by decide) (by decide)

/-- C3, counterexample: user 1 holds Token rows for google and yandex; a
successful `Refresh(1, "yandex")` also rewrites the google row (the UPDATE is
keyed by `user_id` alone), so a Token row of the same user for a different
service is not left unchanged. -/
theorem refresh_other_service_row_cex :
    (tokens.Refresh renv dbRefresh 1 "yandex").1 = .ok rowYandex ∧
    (tokens.Refresh renv dbRefresh 1 "yandex").2.1.tokens =
      [rowGoogleNew, rowYandexNew] ∧
    rowGoogleNew ≠ rowGoogle := by
  decide

/-- C3, amended: a successful `Refresh(userID, service)` writes the new access
token, refresh token, expiry and `createdAt = now` over every Token row whose
`userID` matches — the update is keyed by `userID` alone, so rows of the same
user for other services are rewritten too; rows of other users are unchanged,
and each rewritten row keeps its `userID`, `service` and `tokenType`. -/
theorem refresh_success_run
    (env : tokens.RefreshEnv) (db : DBState) (userID : Int) (service : String)
    (token : Token) (conf : OAuthConfig) (newToken : OAuth2Token)
    (hfind : db.tokens.find? (fun t => t.userID == userID && t.service == service) = some token)
    (hconf : apps.GetConf db token.service = .ok conf)
    (htk : env.refreshTok = some newToken)
    (hup : env.updateOk = true) :
    tokens.Refresh env db userID service =
      (.ok token,
       { db with tokens := db.tokens.map (fun t =>
           if t.userID == userID then
             { t with accessToken := newToken.accessToken,
                      refreshToken := newToken.refreshToken,
                      expiry := newToken.expiry, createdAt := env.now }
           else t) },
       [.tokenLookup, .appConfLookup, .providerRefresh, .tokenWrite]) ∧
    (∀ t ∈ db.tokens, t.userID ≠ userID →
      t ∈ (tokens.Refresh env db userID service).2.1.tokens) := by
  have he : tokens.Refresh env db userID service =
      (.ok token,
       { db with tokens := db.tokens.map (fun t =>
           if t.userID == userID then
             { t with accessToken := newToken.accessToken,
                      refreshToken := newToken.refreshToken,
                      expiry := newToken.expiry, createdAt := env.now }
           else t) },
       [.tokenLookup, .appConfLookup, .providerRefresh, .tokenWrite]) := by
    simp only [tokens.Refresh, hfind, hconf, htk, hup, if_true]
  refine ⟨he, ?_⟩
  intro t ht hne
  rw [he]
  refine List.mem_map.mpr ⟨t, ht, ?_⟩
  simp [hne]

/-- Witness for the amended C3 at the concrete two-service scenario. -/
theorem refresh_success_run_witness :
    tokens.Refresh renv dbRefresh 1 "yandex" =
      (.ok rowYandex,
       { dbRefresh with tokens := dbRefresh.tokens.map (fun t =>
           if t.userID == 1 then
             { t with accessToken := newTok.accessToken,
                      refreshToken := newTok.refreshToken,
                      expiry := newTok.expiry, createdAt := renv.now }
           else t) },
       [.tokenLookup, .appConfLookup, .providerRefresh, .tokenWrite]) ∧
    (∀ t ∈ dbRefresh.tokens, t.userID ≠ 1 →
      t ∈ (tokens.Refresh renv dbRefresh 1 "yandex").2.1.tokens) :=
  refresh_success_run renv dbRefresh 1 "yandex" rowYandex confYandex newTok
    (by decide) (by decide) (by decide) (by decide)

/-- C4: an Exchange created when an authorization URL is issued is retrievable
by the returned identifier; and once a successful `tokens.Create` whose
best-effort delete succeeded has consumed an exchangeID, every later
`tokens.Create` with the same id fails with the not-found error at step 1,
leaving the state unchanged and performing no config lookup, no provider call
and no token write (its trace is the single Exchange lookup). -/
theorem exchange_single_use :
    (∀ (env : apps.AuthCodeEnv) (db : DBState) (service : String) (userID : Int)
        (st : String) (db1 : DBState),
        apps.AuthCodeURL env db service userID = (.ok st, db1) →
        exchanges.Get db1 st = .ok { id := st, service := service, userID := userID }) ∧
    (∀ (env : tokens.CreateEnv) (db : DBState) (code exchangeID : String) (uid : Int)
        (env' : tokens.CreateEnv) (code' : String),
        env.deleteOk = true →
        (tokens.Create env db code exchangeID).1 = .ok uid →
        tokens.Create env' (tokens.Create env db code exchangeID).2.1 code' exchangeID =
          (.error .noRows, (tokens.Create env db code exchangeID).2.1,
           [.exchangeLookup])) := by
  constructor
  · intro env db service userID st db1 h
    obtain ⟨_, hexch, hany⟩ := authCodeURL_ok env db service userID st db1 h
    unfold exchanges.Get
    rw [hexch, List.find?_append]
    have hnone : db.exchanges.find? (fun e => e.id == st) = none := by
      rw [List.find?_eq_none]
      intro x hxm
      have hx := List.any_eq_false.mp hany x hxm
      simpa using hx
    rw [hnone]
    simp
  · intro env db code exchangeID uid env' code' hdel h
    have hE := create_ok_state env db code exchangeID uid hdel h
    have hget : exchanges.Get (tokens.Create env db code exchangeID).2.1 exchangeID =
        .error .noRows := by
      unfold exchanges.Get
      rw [hE, find_filter_id_none]
    exact create_get_noRows env' _ code' exchangeID hget

/-- Witness for C4: the minted exchange of a concrete start-delegation is
retrievable, and re-running create on an already consumed id stops at step 1. -/
theorem exchange_single_use_witness :
    exchanges.Get dbA1 st32 = .ok { id := st32, service := "yandex", userID := 7 } ∧
    tokens.Create env2 dbAfter1 "c2" "x1" =
      (.error .noRows, dbAfter1, [.exchangeLookup]) :=
  ⟨exchange_single_use.1 envA dbApps "yandex" 7 st32 dbA1 (by decide),
   exchange_single_use.2 env1 db0 "c1" "x1" 1 env2 "c2" (by decide) (by decide)⟩

/-- C5: for every service outside the provider switch (none of google, yandex,
mail, vk), `GetConf` fails with `ErrService` whenever an enabled App row for
that service exists, fails with the distinct not-found error when none does,
and the two errors differ. -/
theorem getConf_unsupported
    (db : DBState) (service : String)
    (hg : service ≠ apps.Google) (hy : service ≠ apps.Yandex)
    (hm : service ≠ apps.Mail) (hv : service ≠ apps.VK) :
    (∀ app, apps.findEnabled db service = some app →
        apps.GetConf db service = .error .errService) ∧
    (apps.findEnabled db service = none →
        apps.GetConf db service = .error .noRows) ∧
    Err.errService ≠ Err.noRows := by
  refine ⟨?_, ?_, by decide⟩
  · intro app happ
    have hsvc : app.service = service := by
      have hp := List.find?_some happ
      simp only [Bool.and_eq_true, beq_iff_eq] at hp
      exact hp.1
    simp [apps.GetConf, happ, hsvc, hg, hy, hm, hv]
  · intro h
    simp [apps.GetConf, h]

/-- Witness for C5 with an enabled "facebook" App and with no App at all. -/
theorem getConf_unsupported_witness :
    apps.GetConf dbFacebook "facebook" = .error .errService ∧
    apps.GetConf dbEmpty "facebook" = .error .noRows :=
  ⟨(getConf_unsupported dbFacebook "facebook"
      (by decide) (by decide) (by decide) (by decide)).1 appFacebook (by decide),
   (getConf_unsupported dbEmpty "facebook"
      (by decide) (by decide) (by decide) (by decide)).2.1 (by decide)⟩

/-- C6: `Refresh` on a `(userID, service)` with no stored Token row returns the
not-found error with the state unchanged, and its trace holds only the token
lookup — no client-config resolution and no provider call happened. -/
theorem refresh_absent
    (env : tokens.RefreshEnv) (db : DBState) (userID : Int) (service : String)
    (h : db.tokens.find? (fun t => t.userID == userID && t.service == service) = none) :
    tokens.Refresh env db userID service = (.error .noRows, db, [.tokenLookup]) ∧
    Effect.appConfLookup ∉ (tokens.Refresh env db userID service).2.2 ∧
    Effect.providerRefresh ∉ (tokens.Refresh env db userID service).2.2 := by
  have he : tokens.Refresh env db userID service =
      (.error .noRows, db, [.tokenLookup]) := by
    simp [tokens.Refresh, h]
  refine ⟨he, ?_, ?_⟩ <;> rw [he] <;> simp

/-- Witness for C6 on the empty token store. -/
theorem refresh_absent_witness :
    tokens.Refresh renv dbEmpty 5 "yandex" = (.error .noRows, dbEmpty, [.tokenLookup]) ∧
    Effect.appConfLookup ∉ (tokens.Refresh renv dbEmpty 5 "yandex").2.2 ∧
    Effect.providerRefresh ∉ (tokens.Refresh renv dbEmpty 5 "yandex").2.2 :=
  refresh_absent renv dbEmpty 5 "yandex" (by decide)

/-- C7: whenever `Refresh` succeeds, the Token value it returns is exactly the
record read from storage in step 1 — the pre-refresh stored values, not the
newly obtained material. -/
theorem refresh_prev
    (env : tokens.RefreshEnv) (db : DBState) (userID : Int) (service : String)
    (t : Token) (db1 : DBState) (tr : List Effect)
    (h : tokens.Refresh env db userID service = (.ok t, db1, tr)) :
    db.tokens.find? (fun r => r.userID == userID && r.service == service) = some t := by
  rcases hfind : db.tokens.find? (fun r => r.userID == userID && r.service == service)
    with _ | token
  · simp [tokens.Refresh, hfind] at h
  · simp only [tokens.Refresh, hfind] at h
    rcases hconf : apps.GetConf db token.service with e | conf
    · simp [hconf] at h
    · simp only [hconf] at h
      rcases htk : env.refreshTok with _ | nt
      · simp [htk] at h
      · simp only [htk] at h
        by_cases hup : env.updateOk
        · simp only [hup, if_true, Prod.mk.injEq, Except.ok.injEq] at h
          exact h.1 ▸ hfind
        · simp [hup] at h

/-- Witness for C7: the concrete successful refresh returns the pre-refresh
yandex row. -/
theorem refresh_prev_witness :
    dbRefresh.tokens.find? (fun r => r.userID == 1 && r.service == "yandex") =
      some rowYandex :=
  refresh_prev renv dbRefresh 1 "yandex" rowYandex
    (tokens.Refresh renv dbRefresh 1 "yandex").2.1
    (tokens.Refresh renv dbRefresh 1 "yandex").2.2 (by decide)

/-- C8 (code bug): `SetStatus` with a status outside {enable, disable} fails
fast with `ErrStatus` leaving the rows unchanged, but with a valid status it
never succeeds: the UPDATE is issued through `QueryRow(...).Scan()` with no
RETURNING clause, so the scan always reports the no-rows error even though the
App "abc" exists (and the status write itself is applied — the "disable" call
below returns the error yet flips the stored row). -/
theorem setStatus_never_returns_app :
    apps.SetStatus dbApps "abc" "enable" = (.error .noRows, dbApps) ∧
    (dbApps.apps.find? (fun a => a.id == "abc")).isSome = true ∧
    apps.SetStatus dbApps "abc" "disable" =
      (.error .noRows,
       { apps := [{ appYandex with status := "disable" }],
         exchanges := [], tokens := [] }) ∧
    apps.SetStatus dbApps "abc" "bogus" = (.error .errStatus, dbApps) := by
  decide

/-- C9: `RandomStr(n)` succeeds exactly on a random source of `n` bytes and
then returns a string of length `n` over the 62-character alphanumeric
alphabet; consequently the exchange identifier minted by a successful
start-delegation (`RandomStr 32`) is a 32-character alphanumeric string, and
it is the id of the Exchange row appended by the call. -/
theorem randomStr_alphanumeric :
    helpers.charsList.length = 62 ∧
    (∀ (n : Nat) (randomBytes : List Nat), randomBytes.length = n →
      ∃ s, helpers.RandomStr n randomBytes = some s ∧ s.length = n ∧
        ∀ c ∈ s.toList, c ∈ helpers.charsList) ∧
    (∀ (env : apps.AuthCodeEnv) (db : DBState) (service : String) (userID : Int)
        (st : String) (db1 : DBState),
      apps.AuthCodeURL env db service userID = (.ok st, db1) →
      st.length = 32 ∧ (∀ c ∈ st.toList, c ∈ helpers.charsList) ∧
      db1.exchanges = db.exchanges ++
        [{ id := st, service := service, userID := userID }]) := by
  refine ⟨by decide, ?_, ?_⟩
  · intro n randomBytes h
    have hsome : helpers.RandomStr n randomBytes =
        some (String.mk (randomBytes.map (fun b =>
          helpers.charsList.getD ((b % 256) % helpers.charsList.length) 'A'))) := by
      simp [helpers.RandomStr, h]
    exact ⟨_, hsome, randomStr_ok n randomBytes _ hsome⟩
  · intro env db service userID st db1 h
    obtain ⟨hrnd, hexch, _⟩ := authCodeURL_ok env db service userID st db1 h
    obtain ⟨hlen, halpha⟩ := randomStr_ok 32 env.randomBytes st hrnd
    exact ⟨hlen, halpha, hexch⟩

/-- Witness for C9 on a three-byte source and on the concrete
start-delegation run. -/
theorem randomStr_alphanumeric_witness :
    (∃ s, helpers.RandomStr 3 [10, 61, 200] = some s ∧ s.length = 3 ∧
      ∀ c ∈ s.toList, c ∈ helpers.charsList) ∧
    st32.length = 32 :=
  ⟨randomStr_alphanumeric.2.1 3 [10, 61, 200] (by decide),
   (randomStr_alphanumeric.2.2 envA dbApps "yandex" 7 st32 dbA1 (by decide)).1⟩

/-- C10: for the supported services "mail" and "vk", `GetConf` on an enabled
App row returns a configuration whose scope list is empty — the static scope
table has entries only for yandex and google — while the provider endpoint is
still attached. -/
theorem getConf_mail_vk
    (db : DBState) (service : String) (app : App)
    (happ : apps.findEnabled db service = some app)
    (hsv : service = apps.Mail ∨ service = apps.VK) :
    apps.GetConf db service = .ok
      { clientID := app.id, clientSecret := app.password, scopes := [],
        redirectURL := app.callbackURL,
        endpoint := if service = apps.Mail then .mailru else .vk } ∧
    apps.scopes service = [] := by
  have hsvc : app.service = service := by
    have hp := List.find?_some happ
    simp only [Bool.and_eq_true, beq_iff_eq] at hp
    exact hp.1
  constructor
  · simp only [apps.GetConf, happ]
    rcases hsv with h | h <;>
      simp [hsvc, h, apps.scopes, apps.Mail, apps.VK, apps.Yandex, apps.Google]
  · rcases hsv with h | h <;>
      simp [apps.scopes, h, apps.Mail, apps.VK, apps.Yandex, apps.Google]

/-- Witness for C10 with a concrete enabled mail App. -/
theorem getConf_mail_vk_witness :
    apps.GetConf dbMail "mail" = .ok
      { clientID := appMail.id, clientSecret := appMail.password, scopes := [],
        redirectURL := appMail.callbackURL,
        endpoint := if "mail" = apps.Mail then .mailru else .vk } ∧
    apps.scopes "mail" = [] :=
  getConf_mail_vk dbMail "mail" appMail (by decide) (Or.inl rfl)

end Auth
